import Mathlib

/-
Verification of the build/watch orchestration module (src/build.ts) of the
nitro repository: a shallow embedding of its pure computations and control
flow, with theorems settling the specified properties.

Strings model JavaScript strings; filesystem and bundler effects are modelled
by explicit traces (lists of performed actions) or outcome records.
-/

set_option autoImplicit false

namespace NitroBuild

/-! ## String helpers (JavaScript semantics) -/

/-- JavaScript `s.startsWith(p)`: `p` is a prefix of the character sequence
of `s`.  Used by `prepare` to decide whether an output subdirectory was
already cleared together with the output root. -/
def strStartsWith (s p : String) : Bool :=
  List.isPrefixOf p.data s.data

/-- The notion from the spec of one path being nested under a root directory:
either the same path, or a descendant (the root followed by a path
separator is a prefix).  This is the spec-side notion; the source tests a
plain string prefix instead. -/
def nestedUnder (child root : String) : Bool :=
  child == root || List.isPrefixOf (root.data ++ [ '/' ]) child.data

/-! ## prepare (src/build.ts lines 12–22)

`prepare` empties the output root, then empties the public output dir and
the server output dir, each guarded by `!dir.startsWith(output.dir)`.  We
model it by the ordered list of directories passed to `cleanupDir`
(`fse.emptyDir`). -/

structure OutputDirs where
  dir : String
  publicDir : String
  serverDir : String
deriving DecidableEq, Repr

/-- The ordered list of directories `prepare` empties (`cleanupDir` calls):
always the output root; the public output dir unless it `startsWith` the
output root; the server output dir unless it `startsWith` the output root. -/
def prepare (o : OutputDirs) : List String :=
  [o.dir]
    ++ (if strStartsWith o.publicDir o.dir then [] else [o.publicDir])
    ++ (if strStartsWith o.serverDir o.dir then [] else [o.serverDir])

/-! ## Watch event filter and patterns (src/build.ts lines 183–193) -/

/-- The events the chokidar `all` handler can deliver. -/
inductive FsEvent where
  | add
  | addDir
  | change
  | unlink
  | unlinkDir
deriving DecidableEq, Repr

/-- The chokidar event-name string of each event. -/
def FsEvent.name : FsEvent → String
  | .add => "add"
  | .addDir => "addDir"
  | .change => "change"
  | .unlink => "unlink"
  | .unlinkDir => "unlinkDir"

/-- The `watchReloadEvents` set from `_watch` (modelled as a list; the
source builds a `Set` from exactly these four strings). -/
def watchReloadEvents : List String :=
  ["add", "addDir", "unlink", "unlinkDir"]

/-- The `all` handler of the reload watcher calls `reload()` exactly when
the event name is in `watchReloadEvents`. -/
def triggersReload (e : FsEvent) : Bool :=
  watchReloadEvents.contains e.name

/-- `pathe.join` of two already-normalized segments without trailing
separators, as used on the watch patterns and the types directory. -/
def join2 (a b : String) : String :=
  a ++ "/" ++ b

/-- Modelled from the spec: `GLOB_SCAN_PATTERN` is imported from
`./scan`, which is not part of the sources under verification; the spec
gives the middleware watch pattern as `<scanDir>/middleware/**`, so the
pattern is modelled as `**`. -/
def GLOB_SCAN_PATTERN : String := "**"

/-- The chokidar subscription patterns built by `_watch`:
`join(dir, "api")` and `join(dir, "middleware", GLOB_SCAN_PATTERN)` for
each scan directory. -/
def watchPatterns (scanDirs : List String) : List String :=
  scanDirs.flatMap (fun dir =>
    [join2 dir "api", join2 (join2 dir "middleware") GLOB_SCAN_PATTERN])

/-- The pattern list the claim describes: `<scanDir>/api/**` and
`<scanDir>/middleware/**` for each scan directory. -/
def claimedWatchPatterns (scanDirs : List String) : List String :=
  scanDirs.flatMap (fun dir => [dir ++ "/api/**", dir ++ "/middleware/**"])

/-! ## Relative paths (pathe `relative`, for absolute normalized paths) -/

/-- Split a list of path characters into its nonempty `/`-separated
segments, accumulating the current segment in reverse. -/
def pathSegmentsAux (cur : List Char) : List Char → List String
  | [] => if cur.isEmpty then [] else [String.mk cur.reverse]
  | c :: rest =>
    if c = '/' then
      (if cur.isEmpty then [] else [String.mk cur.reverse]) ++ pathSegmentsAux [] rest
    else
      pathSegmentsAux (c :: cur) rest

/-- Split an absolute normalized path into its segments. -/
def pathSegments (p : String) : List String :=
  pathSegmentsAux [] p.data

/-- Join strings with a separator (`Array.prototype.join`). -/
def joinWith (sep : String) : List String → String
  | [] => ""
  | [x] => x
  | x :: y :: rest => x ++ sep ++ joinWith sep (y :: rest)

/-- Drop the common leading segments of two segment lists. -/
def dropCommon : List String → List String → List String × List String
  | a :: as, b :: bs => if a = b then dropCommon as bs else (a :: as, b :: bs)
  | as, bs => (as, bs)

/-- `pathe.relative` on absolute normalized paths: walk up out of the
remaining `from` segments, then down the remaining `to` segments. -/
def relativePath (fromP toP : String) : String :=
  let p := dropCommon (pathSegments fromP) (pathSegments toP)
  joinWith "/" (p.1.map (fun _ => "..") ++ p.2)

/-- One lowercase ASCII letter, as matched by `[a-z]` in the extension
regex of `writeTypes`. -/
def isLowerAlpha (c : Char) : Bool :=
  'a' ≤ c && c ≤ 'z'

/-- JavaScript `s.replace` of the anchored regex `\.[a-z]+$` by the empty
string: drop a trailing dot followed
by a nonempty run of lowercase letters, if the string ends in one. -/
def stripExt (s : String) : String :=
  let rev := s.data.reverse
  let ltrs := rev.takeWhile isLowerAlpha
  if ltrs.isEmpty then s
  else
    match rev.drop ltrs.length with
    | '.' :: _ => String.mk (s.data.take (s.data.length - ltrs.length - 1))
    | _ => s

/-! ## writeTypes (src/build.ts lines 54–93) -/

/-- The `handler` field of a middleware entry: either a string path to the
implementation module, or a directly attached function value. -/
inductive HandlerRef where
  | path (p : String)
  | fn
deriving DecidableEq, Repr

/-- A merged middleware entry as `writeTypes` sees it.  `route := none`
models an absent route and `route := some ""` an empty one; both are falsy
in the `!mw.route` test of the source. -/
structure Handler where
  route : Option String
  handler : HandlerRef
deriving DecidableEq, Repr

/-- The type expression pushed for one qualifying handler:
`Awaited<ReturnType<typeof import(<relativePath>).default>>` with its
module path computed relative to the types directory and the file
extension stripped. -/
def typeExpr (typesDir p : String) : String :=
  "Awaited<ReturnType<typeof import(\x27" ++ stripExt (relativePath typesDir p)
    ++ "\x27).default>>"

/-- The guard and payload of the `writeTypes` loop body: a handler
qualifies when its `handler` is a string and its route is truthy; the
payload is the route together with its type expression. -/
def qualify (typesDir : String) (mw : Handler) : Option (String × String) :=
  match mw.handler, mw.route with
  | .path p, some r => if r = "" then none else some (r, typeExpr typesDir p)
  | _, _ => none

/-- `routeTypes[mw.route] = routeTypes[mw.route] || []` followed by a
`push`: append `t` to the entry of `r`, creating the entry at the end in
first-encounter order (JavaScript object insertion order for the
non-integer-like route keys). -/
def addType (m : List (String × List String)) (r t : String) :
    List (String × List String) :=
  match m with
  | [] => [(r, [t])]
  | (k, v) :: rest =>
    if k = r then (k, v ++ [t]) :: rest else (k, v) :: addType rest r t

/-- One iteration of the `writeTypes` loop over the merged middleware. -/
def routeTypesStep (typesDir : String) (m : List (String × List String))
    (mw : Handler) : List (String × List String) :=
  match qualify typesDir mw with
  | none => m
  | some (r, t) => addType m r t

/-- The `routeTypes` record after the loop over
`[...nitro.scannedHandlers, ...nitro.options.handlers]`. -/
def buildRouteTypes (typesDir : String) (middleware : List Handler) :
    List (String × List String) :=
  middleware.foldl (routeTypesStep typesDir) []

/-- Lookup in the route-type map; a missing route yields `[]`. -/
def lookupTypes (r : String) : List (String × List String) → List String
  | [] => []
  | (k, v) :: rest => if k = r then v else lookupTypes r rest

/-- The lines of the generated `types/nitro.d.ts`, exactly as assembled by
`writeTypes`; `autoImportedTypes` is the (possibly empty) list of trimmed
unimport declaration blocks. -/
def writeTypesLines (buildDir : String) (scannedHandlers handlers : List Handler)
    (autoImportedTypes : List String) : List String :=
  let routeTypes := buildRouteTypes (join2 buildDir "types") (scannedHandlers ++ handlers)
  ["// Generated by nitro",
   "declare module \x27nitropack\x27 \x7b",
   "  type Awaited<T> = T extends PromiseLike<infer U> ? Awaited<U> : T",
   "  interface InternalApi \x7b"]
  ++ routeTypes.map (fun p => "    \x27" ++ p.1 ++ "\x27: " ++ joinWith " | " p.2)
  ++ ["  \x7d", "\x7d"]
  ++ autoImportedTypes
  ++ ["export \x7b\x7d"]

/-- The full text written to `types/nitro.d.ts`: the lines joined with a
newline. -/
def writeTypesText (buildDir : String) (scannedHandlers handlers : List Handler)
    (autoImportedTypes : List String) : String :=
  joinWith "\n" (writeTypesLines buildDir scannedHandlers handlers autoImportedTypes)

/-! ## Document template compilation in build (src/build.ts lines 39–47) -/

/-- The template contents: the virtual overlay entry when truthy
(`nitro.vfs[src] || ...`), else the disk read result, where `disk = none`
models a rejected `fse.readFile` whose `.catch` yields the empty string. -/
def templateContents (vfs : String → Option String) (src : String)
    (disk : Option String) : String :=
  match vfs src with
  | some s => if s = "" then disk.getD "" else s
  | none => disk.getD ""

/-- The compiled template module written when the contents are truthy:
`"export default " + serializeTemplate(contents)`; empty contents produce
no module (`none`).  `serializeTemplate` is an external collaborator,
passed as a function. -/
def templateModule (serializeTemplate : String → String) (contents : String) :
    Option String :=
  if contents = "" then none
  else some ("export default " ++ serializeTemplate contents)

/-! ## Command-hint rewriting (src/build.ts lines 127–136) -/

/-- JavaScript regex `\s` restricted to the ASCII whitespace characters. -/
def jsWhitespace (c : Char) : Bool :=
  c == ' ' || c == '\t' || c == '\n' || c == '\r' || c == '\x0b' || c == '\x0c'

/-- Fuel-indexed core of
`input.replaceAll` of the global regex `\s\.\/([^\s]+)` with the
replacement template splicing a space, the output path, `/` and the
captured group: scan left to
right; at a whitespace character followed by `./` and a nonempty run of
non-whitespace characters, emit a plain space, the output path, `/` and
the run, and resume scanning right after the run; at any other character,
emit it and advance.  The fuel only forces structural recursion; it never
runs out when it starts at the length of the input. -/
def rewriteAux (rOut : String) : Nat → List Char → List Char
  | 0, _ => []
  | _, [] => []
  | fuel + 1, c :: rest =>
    if jsWhitespace c then
      match rest with
      | '.' :: '/' :: cs2 =>
        let run := cs2.takeWhile (fun d => !jsWhitespace d)
        if run.isEmpty then c :: rewriteAux rOut fuel rest
        else (' ' :: (rOut.data ++ '/' :: run)) ++ rewriteAux rOut fuel (cs2.drop run.length)
      | _ => c :: rewriteAux rOut fuel rest
    else c :: rewriteAux rOut fuel rest

/-- The `rewriteRelativePaths` closure of `_build`, with the resolved
relative output dir `rOut` in place of `relative(process.cwd(), ...)`. -/
def rewriteRelativePaths (rOut input : String) : String :=
  String.mk (rewriteAux rOut input.data.length input.data)

/-- The rewrite as the claim words it: identical scanning, but the
substitution keeps the matched whitespace character in front of the
spliced output path instead of a plain space. -/
def claimRewriteAux (rOut : String) : Nat → List Char → List Char
  | 0, _ => []
  | _, [] => []
  | fuel + 1, c :: rest =>
    if jsWhitespace c then
      match rest with
      | '.' :: '/' :: cs2 =>
        let run := cs2.takeWhile (fun d => !jsWhitespace d)
        if run.isEmpty then c :: claimRewriteAux rOut fuel rest
        else (c :: (rOut.data ++ '/' :: run)) ++ claimRewriteAux rOut fuel (cs2.drop run.length)
      | _ => c :: claimRewriteAux rOut fuel rest
    else c :: claimRewriteAux rOut fuel rest

/-- The command-hint rewrite as described by the claim. -/
def claimRewrite (rOut input : String) : String :=
  String.mk (claimRewriteAux rOut input.data.length input.data)

/-! ## The one-shot build pipeline `_build` (src/build.ts lines 95–141) -/

/-- The externally visible outcome of one `_build` run: the log lines in
order, which pipeline steps ran, and the returned or re-raised value. -/
structure BuildTrace where
  logs : List String
  scanned : Bool
  typesWritten : Bool
  bundleWriteRan : Bool
  manifestWritten : Bool
  compiledFired : Bool
  result : Except String String
deriving Repr

/-- The `_build` pipeline: scan, write types, log, bundle.  `rollupResult`
models whether `rollup.rollup` resolves; on rejection the `.catch` logs
`"Rollup error: " + error.message` and re-throws, so the bundle write, the
manifest write, the `nitro:compiled` hook and the hint logs never run.  On
success every later step runs in order and the resolved entry path is
returned. -/
def runBuild (preview deploy : Option String) (rOutput : String)
    (rollupResult : Except String Unit) (entry : String) : BuildTrace :=
  let t0 : BuildTrace :=
    { logs := ["Building server..."], scanned := true, typesWritten := true,
      bundleWriteRan := false, manifestWritten := false, compiledFired := false,
      result := Except.error "" }
  match rollupResult with
  | Except.error msg =>
    { t0 with
        logs := t0.logs ++ ["Rollup error: " ++ msg],
        result := Except.error msg }
  | Except.ok _ =>
    let hint := fun (verb : String) (cmd : Option String) =>
      match cmd with
      | some c =>
        if c = "" then []
        else ["You can " ++ verb ++ " this build using \x60"
                ++ rewriteRelativePaths rOutput c ++ "\x60"]
      | none => []
    { logs := t0.logs ++ ["Writing server bundle...", "Server built"]
        ++ hint "preview" preview ++ hint "deploy" deploy,
      scanned := true, typesWritten := true, bundleWriteRan := true,
      manifestWritten := true, compiledFired := true,
      result := Except.ok entry }

/-! ## Debounced single-flight reload (src/build.ts lines 176–181) -/

/-- Modelled from the spec: the trailing debounce device of
`perfect-debounce` (an external collaborator of this module).  Over a
sorted list of event arrival times, the debounced callback fires once for
each event whose successor arrives a full window or more later, plus once
after the final event of the list. -/
def debounceFireCount (w : Nat) : List Nat → Nat
  | [] => 0
  | [_] => 1
  | t1 :: t2 :: rest => (if t2 - t1 < w then 0 else 1) + debounceFireCount w (t2 :: rest)

/-- Modelled from the spec: the single-flight discipline of the debounced
`reload` — at most one execution `active` at a time, one `pending`
re-run-requested flag, and a count of `started` executions. -/
structure SingleFlight where
  active : Nat
  pending : Bool
  started : Nat
deriving DecidableEq, Repr

/-- A request for the single-flight runner (`trigger`) or the completion
of the currently running execution (`complete`). -/
inductive SFEvent where
  | trigger
  | complete
deriving DecidableEq, Repr

/-- One step of the single-flight runner: a trigger starts an execution
when idle and otherwise only records the pending flag; a completion
restarts exactly one trailing execution when the flag is set and otherwise
goes idle. -/
def sfStep (s : SingleFlight) : SFEvent → SingleFlight
  | SFEvent.trigger =>
    if s.active = 0 then { s with active := 1, started := s.started + 1 }
    else { s with pending := true }
  | SFEvent.complete =>
    if s.pending then { s with pending := false, started := s.started + 1 }
    else { s with active := s.active - 1 }

/-- The idle initial state of the single-flight runner. -/
def sfInit : SingleFlight :=
  { active := 0, pending := false, started := 0 }

/-- Run the single-flight machine over a sequence of events. -/
def sfRun (es : List SFEvent) : SingleFlight :=
  es.foldl sfStep sfInit

/-! ## Watch-mode shutdown (src/build.ts lines 173–200) -/

/-- What the registered `close` hook achieves, as a function of the
`rollupWatcher` binding at the instant it fires. -/
structure ShutdownOutcome where
  rollupWatcherClosed : Bool
  reloadWatcherClosed : Bool
  threw : Bool
deriving DecidableEq, Repr

/-- The `close` hook body, which calls `rollupWatcher.close()` and then
`reloadWacher.close()`:
with the `let rollupWatcher` binding still undefined (`none`), the method
call on `undefined` throws a TypeError, so `reloadWacher.close()` is never
reached; with a handle assigned, both closes run. -/
def closeHook (rollupWatcher : Option Nat) : ShutdownOutcome :=
  match rollupWatcher with
  | none => { rollupWatcherClosed := false, reloadWatcherClosed := false, threw := true }
  | some _ => { rollupWatcherClosed := true, reloadWatcherClosed := true, threw := false }

/-- The phases of one `reload` cycle, in source order: close the previous
bundler watcher, await the scanner, start the new bundler watcher, write
the types. -/
inductive ReloadPhase where
  | closingPrevious
  | awaitingScanner
  | watcherStarted
  | typesWritten
deriving DecidableEq, Repr

/-- The value of the `rollupWatcher` binding during each phase of one
reload cycle: it still holds the previous handle (`none` on the first
cycle) until `startRollupWatcher` returns. -/
def rollupWatcherDuring (prev : Option Nat) (fresh : Nat) : ReloadPhase → Option Nat
  | ReloadPhase.closingPrevious => prev
  | ReloadPhase.awaitingScanner => prev
  | ReloadPhase.watcherStarted => some fresh
  | ReloadPhase.typesWritten => some fresh

end NitroBuild

namespace NitroBuild

/-! ## Helper lemmas -/

theorem isPrefixOf_append_left {α : Type} [BEq α] [LawfulBEq α]
    (a b x : List α) (h : List.isPrefixOf (a ++ b) x = true) :
    List.isPrefixOf a x = true := by
  induction a generalizing x with
  | nil => simp only [List.isPrefixOf]
  | cons c cs ih =>
    cases x with
    | nil =>
      exact absurd h (by simp only [List.cons_append, List.isPrefixOf]; exact Bool.false_ne_true)
    | cons y ys =>
      simp only [List.cons_append, List.isPrefixOf, Bool.and_eq_true] at h ⊢
      exact ⟨h.1, ih ys h.2⟩

theorem isPrefixOf_refl {α : Type} [BEq α] [LawfulBEq α] (a : List α) :
    List.isPrefixOf a a = true := by
  induction a with
  | nil => rfl
  | cons c cs ih => simp only [List.isPrefixOf, ih, Bool.and_true, beq_self_eq_true]

/-- Nesting under a root implies the plain string-prefix test the source
uses (`startsWith`). -/
theorem nestedUnder_startsWith (c r : String) (h : nestedUnder c r = true) :
    strStartsWith c r = true := by
  unfold nestedUnder at h
  unfold strStartsWith
  rcases Bool.or_eq_true_iff.mp h with h1 | h2
  · have hcr : c = r := (beq_iff_eq (a := c) (b := r)).mp h1
    subst hcr
    exact isPrefixOf_refl c.data
  · exact isPrefixOf_append_left r.data [ '/' ] c.data h2

theorem lookupTypes_addType_same (r t : String) (m : List (String × List String)) :
    lookupTypes r (addType m r t) = lookupTypes r m ++ [t] := by
  induction m with
  | nil => simp [addType, lookupTypes]
  | cons p rest ih =>
    obtain ⟨k, v⟩ := p
    by_cases hk : k = r
    · subst hk
      simp [addType, lookupTypes]
    · simp [addType, lookupTypes, hk, ih]

/-! ## Claim theorems -/

/-- C3 counterexample: with output root `/out`, the public output dir
`/out-public` is not nested under the output root, yet `prepare` does not
clear it — the source tests a plain string prefix, so the claimed "clears
independently exactly when not nested under the output root" fails. -/
theorem claim_C3_counterexample :
    nestedUnder "/out-public" "/out" = false ∧
    "/out-public" ∉ prepare ⟨"/out", "/out-public", "/out/server"⟩ := by
  constructor
  · decide
  · decide

/-- C3 (amended): `prepare` always clears the output root; when both the
public and the server output dirs are nested under the output root it
performs exactly the single clear of the output root; and it clears all
three locations exactly when neither has the output root as a string
prefix (`startsWith`) — the guard is the string prefix, not nesting. -/
theorem claim_C3 (o : OutputDirs) :
    o.dir ∈ prepare o ∧
    (nestedUnder o.publicDir o.dir = true → nestedUnder o.serverDir o.dir = true →
      prepare o = [o.dir]) ∧
    (strStartsWith o.publicDir o.dir = false → strStartsWith o.serverDir o.dir = false →
      prepare o = [o.dir, o.publicDir, o.serverDir]) := by
  refine ⟨by simp [prepare], ?_, ?_⟩
  · intro h1 h2
    have p1 := nestedUnder_startsWith _ _ h1
    have p2 := nestedUnder_startsWith _ _ h2
    simp [prepare, p1, p2]
  · intro h1 h2
    simp [prepare, h1, h2]

theorem claim_C3_witness :
    nestedUnder "/out/public" "/out" = true ∧
    nestedUnder "/out/server" "/out" = true ∧
    prepare ⟨"/out", "/out/public", "/out/server"⟩ = ["/out"] := by
  have h1 : nestedUnder "/out/public" "/out" = true := by decide
  have h2 : nestedUnder "/out/server" "/out" = true := by decide
  exact ⟨h1, h2, (claim_C3 ⟨"/out", "/out/public", "/out/server"⟩).2.1 h1 h2⟩

/-- C6: exactly the four structural events — add, addDir, unlink,
unlinkDir — make the `all` handler invoke the debounced reload; a plain
content-modification (`change`) event never does. -/
theorem claim_C6 :
    (∀ e : FsEvent, triggersReload e = true ↔
      (e = FsEvent.add ∨ e = FsEvent.addDir ∨ e = FsEvent.unlink ∨ e = FsEvent.unlinkDir)) ∧
    triggersReload FsEvent.change = false := by
  constructor
  · intro e
    cases e <;> simp [triggersReload, watchReloadEvents, FsEvent.name]
  · decide

/-- C7 counterexample: for scan directory `/srv` the watcher is subscribed
over `/srv/api` (the directory itself, no glob suffix) and
`/srv/middleware/**`, which differs from the claimed pattern list
`/srv/api/**`, `/srv/middleware/**`. -/
theorem claim_C7_counterexample :
    watchPatterns ["/srv"] = ["/srv/api", "/srv/middleware/**"] ∧
    claimedWatchPatterns ["/srv"] = ["/srv/api/**", "/srv/middleware/**"] ∧
    watchPatterns ["/srv"] ≠ claimedWatchPatterns ["/srv"] := by
  refine ⟨rfl, rfl, ?_⟩
  decide

/-- C7 (amended): for every configured scan directory, the filesystem
watcher is subscribed over exactly the patterns `<scanDir>/api` (the api
subtree, as a bare directory path) and `<scanDir>/middleware/**`. -/
theorem claim_C7 (scanDirs : List String) :
    watchPatterns scanDirs =
      scanDirs.flatMap (fun dir => [dir ++ "/api", dir ++ "/middleware/**"]) := by
  unfold watchPatterns
  congr 1
  funext dir
  unfold join2 GLOB_SCAN_PATTERN
  simp only [String.append_assoc]
  rfl

/-- C4: `writeTypes` is deterministic, hence idempotent — two invocations
with identical scanned-handler lists, identical configured-handler lists
and identical auto-import input produce byte-identical declaration text. -/
theorem claim_C4 (buildDir : String) (s1 s2 h1 h2 : List Handler)
    (u1 u2 : List String) (es : s1 = s2) (eh : h1 = h2) (eu : u1 = u2) :
    writeTypesText buildDir s1 h1 u1 = writeTypesText buildDir s2 h2 u2 := by
  subst es
  subst eh
  subst eu
  rfl

theorem claim_C4_witness :
    writeTypesText "/bd" [⟨some "/r", HandlerRef.path "/a/h.ts"⟩] [] []
      = writeTypesText "/bd" [⟨some "/r", HandlerRef.path "/a/h.ts"⟩] [] [] :=
  claim_C4 "/bd" _ _ _ _ _ _ rfl rfl rfl

/-- C5: a merged handler lacking a string implementation or a truthy route
leaves the route-type map unchanged (skipped without error); a handler
having both appends its type expression to the entry of its route, creating the
entry if absent; and the concrete scanned handler
with route `/api/hello` and handler path `/src/api/hello.ts` with no configured
handlers yields the interface line for the quoted route `/api/hello` referencing the
relative import of `hello` with the extension stripped. -/
theorem claim_C5 :
    (∀ (td : String) (hs : List Handler) (mw : Handler),
      qualify td mw = none →
      buildRouteTypes td (hs ++ [mw]) = buildRouteTypes td hs) ∧
    (∀ (td : String) (hs : List Handler) (mw : Handler) (r t : String),
      qualify td mw = some (r, t) →
      lookupTypes r (buildRouteTypes td (hs ++ [mw]))
        = lookupTypes r (buildRouteTypes td hs) ++ [t]) ∧
    (writeTypesLines "/project/.nitro"
        [⟨some "/api/hello", HandlerRef.path "/src/api/hello.ts"⟩] [] []).contains
      "    \x27/api/hello\x27: Awaited<ReturnType<typeof import(\x27../../../src/api/hello\x27).default>>"
      = true := by
  refine ⟨?_, ?_, ?_⟩
  · intro td hs mw h
    simp [buildRouteTypes, List.foldl_append, routeTypesStep, h]
  · intro td hs mw r t h
    simp [buildRouteTypes, List.foldl_append, routeTypesStep, h, lookupTypes_addType_same]
  · decide

theorem claim_C5_witness :
    qualify "/t" ⟨some "/api/hello", HandlerRef.path "/a/h.ts"⟩
      = some ("/api/hello", "Awaited<ReturnType<typeof import(\x27../a/h\x27).default>>") ∧
    lookupTypes "/api/hello"
        (buildRouteTypes "/t" ([] ++ [⟨some "/api/hello", HandlerRef.path "/a/h.ts"⟩]))
      = lookupTypes "/api/hello" (buildRouteTypes "/t" [])
        ++ ["Awaited<ReturnType<typeof import(\x27../a/h\x27).default>>"] := by
  have hq : qualify "/t" ⟨some "/api/hello", HandlerRef.path "/a/h.ts"⟩
      = some ("/api/hello", "Awaited<ReturnType<typeof import(\x27../a/h\x27).default>>") := by
    decide
  exact ⟨hq, claim_C5.2.1 "/t" [] _ _ _ hq⟩

/-- C9: an empty-string overlay entry is falsy in the `||` lookup, so
`build` ignores it and falls back to the disk read; if the disk read also
fails, the contents are empty and no template module is written. -/
theorem claim_C9 (vfs : String → Option String) (src : String)
    (disk : Option String) (serialize : String → String)
    (h : vfs src = some "") :
    templateContents vfs src disk = disk.getD "" ∧
    (disk = none → templateModule serialize (templateContents vfs src disk) = none) := by
  constructor
  · simp [templateContents, h]
  · intro hd
    subst hd
    simp [templateContents, templateModule, h]

theorem claim_C9_witness :
    (fun _ : String => some "") "/b/views/app.template.html" = some "" ∧
    templateContents (fun _ => some "") "/b/views/app.template.html" none = "" ∧
    templateModule id (templateContents (fun _ => some "") "/b/views/app.template.html" none)
      = none := by
  have h := claim_C9 (fun _ => some "") "/b/views/app.template.html" none id rfl
  exact ⟨rfl, h.1, h.2 rfl⟩

/-- C10: if the `close` hook fires while the first reload cycle is still
awaiting the scanner, the `rollupWatcher` binding is still undefined, so
the close handler calls `close()` on an undefined handle, throws, and the
own close call of the filesystem watcher is never reached. -/
theorem claim_C10 (fresh : Nat) :
    rollupWatcherDuring none fresh ReloadPhase.awaitingScanner = none ∧
    closeHook (rollupWatcherDuring none fresh ReloadPhase.awaitingScanner)
      = { rollupWatcherClosed := false, reloadWatcherClosed := false, threw := true } :=
  ⟨rfl, rfl⟩

/-- C1: when the one-shot bundler build rejects with an error, `_build`
logs the prefixed message `Rollup error: ...` and re-raises that same
error, and afterwards the bundle write step has not run, no manifest has
been written, and the `nitro:compiled` hook has not fired. -/
theorem claim_C1 (preview deploy : Option String) (rOutput msg entry : String) :
    (runBuild preview deploy rOutput (Except.error msg) entry).result = Except.error msg ∧
    ("Rollup error: " ++ msg) ∈ (runBuild preview deploy rOutput (Except.error msg) entry).logs ∧
    (runBuild preview deploy rOutput (Except.error msg) entry).bundleWriteRan = false ∧
    (runBuild preview deploy rOutput (Except.error msg) entry).manifestWritten = false ∧
    (runBuild preview deploy rOutput (Except.error msg) entry).compiledFired = false := by
  simp [runBuild]

theorem sfStep_active_le (s : SingleFlight) (e : SFEvent) (h : s.active ≤ 1) :
    (sfStep s e).active ≤ 1 := by
  cases e <;> simp only [sfStep] <;> split <;> simp_all

theorem sfRun_active_le_aux (es : List SFEvent) (s : SingleFlight) (h : s.active ≤ 1) :
    (es.foldl sfStep s).active ≤ 1 := by
  induction es generalizing s with
  | nil => exact h
  | cons e rest ih => exact ih _ (sfStep_active_le s e h)

/-- C2: any number of qualifying events delivered within one debounce
window produce exactly one fire of the debounced reload; a trigger
arriving while a reload is running is recorded (never dropped) and, once
the running reload completes, starts exactly one trailing reload; and no
event sequence ever makes two reloads run concurrently. -/
theorem claim_C2 :
    (∀ (w t : Nat) (ts : List Nat), List.Sorted (· ≤ ·) (t :: ts) →
      (∀ x ∈ ts, x - t < w) → debounceFireCount w (t :: ts) = 1) ∧
    (∀ s : SingleFlight, s.active = 1 → s.pending = false →
      (sfStep s SFEvent.trigger).pending = true ∧
      (sfStep s SFEvent.trigger).started = s.started ∧
      (sfStep (sfStep s SFEvent.trigger) SFEvent.complete).started = s.started + 1 ∧
      (sfStep (sfStep s SFEvent.trigger) SFEvent.complete).active = 1) ∧
    (∀ es : List SFEvent, (sfRun es).active ≤ 1) := by
  refine ⟨?_, ?_, ?_⟩
  · intro w t ts
    induction ts generalizing t with
    | nil =>
      intro _ _
      rfl
    | cons t2 rest ih =>
      intro hsort hwin
      have h12 : t ≤ t2 := (List.sorted_cons.mp hsort).1 t2 (by simp)
      have hlt : t2 - t < w := hwin t2 (by simp)
      have hsort2 : List.Sorted (· ≤ ·) (t2 :: rest) := (List.sorted_cons.mp hsort).2
      have hwin2 : ∀ x ∈ rest, x - t2 < w := by
        intro x hx
        exact lt_of_le_of_lt (Nat.sub_le_sub_left h12 x) (hwin x (by simp [hx]))
      simpa [debounceFireCount, hlt] using ih t2 hsort2 hwin2
  · intro s h1 h2
    simp [sfStep, h1, h2]
  · intro es
    exact sfRun_active_le_aux es sfInit (by simp [sfInit])

theorem claim_C2_witness :
    debounceFireCount 50 [0, 5] = 1 ∧
    (sfStep (sfStep { active := 1, pending := false, started := 3 }
        SFEvent.trigger) SFEvent.complete).started = 4 := by
  refine ⟨claim_C2.1 50 0 [5] ?_ ?_,
    (claim_C2.2.1 { active := 1, pending := false, started := 3 } rfl rfl).2.2.1⟩
  · decide
  · decide

/-- C8 counterexample: with output root `dist` and the template
`"node\t./a"` (a tab before `./a`), the code rewrites to `"node dist/a"`,
replacing the matched whitespace with a plain space, whereas the claimed
substitution keeps the matched whitespace and yields `"node\tdist/a"`. -/
theorem claim_C8_counterexample :
    rewriteRelativePaths "dist" "node\t./a" = "node dist/a" ∧
    claimRewrite "dist" "node\t./a" = "node\tdist/a" ∧
    rewriteRelativePaths "dist" "node\t./a" ≠ claimRewrite "dist" "node\t./a" := by
  refine ⟨?_, ?_, ?_⟩ <;> decide

theorem rewriteAux_cons_ws_default (rOut : String) (fuel : Nat) (c : Char)
    (rest : List Char) (hw : jsWhitespace c = true)
    (hnm : ∀ cs2 : List Char, rest ≠ '.' :: '/' :: cs2) :
    rewriteAux rOut (fuel + 1) (c :: rest) = c :: rewriteAux rOut fuel rest := by
  simp only [rewriteAux, hw, if_true]

theorem claimRewriteAux_cons_ws_default (rOut : String) (fuel : Nat) (c : Char)
    (rest : List Char) (hw : jsWhitespace c = true)
    (hnm : ∀ cs2 : List Char, rest ≠ '.' :: '/' :: cs2) :
    claimRewriteAux rOut (fuel + 1) (c :: rest) = c :: claimRewriteAux rOut fuel rest := by
  simp only [claimRewriteAux, hw, if_true]

theorem rewriteAux_eq_claimRewriteAux (rOut : String) (fuel : Nat) (cs : List Char)
    (h : ∀ c ∈ cs, jsWhitespace c = true → c = ' ') :
    rewriteAux rOut fuel cs = claimRewriteAux rOut fuel cs := by
  induction fuel generalizing cs with
  | zero => cases cs <;> rfl
  | succ fuel ih =>
    cases cs with
    | nil => rfl
    | cons c rest =>
      have hrest : ∀ d ∈ rest, jsWhitespace d = true → d = ' ' := by
        intro d hd
        exact h d (List.mem_cons_of_mem c hd)
      by_cases hw : jsWhitespace c = true
      · have hc : c = ' ' := h c (List.mem_cons_self c rest) hw
        subst hc
        rcases hshape : rest with _ | ⟨c1, _ | ⟨c2, cs2⟩⟩
        · rw [rewriteAux_cons_ws_default rOut fuel ' ' [] hw (by intro cs2 hk; cases hk),
            claimRewriteAux_cons_ws_default rOut fuel ' ' [] hw (by intro cs2 hk; cases hk)]
          rw [ih _ (by simp)]
        · rw [rewriteAux_cons_ws_default rOut fuel ' ' [c1] hw (by intro cs2 hk; cases hk),
            claimRewriteAux_cons_ws_default rOut fuel ' ' [c1] hw (by intro cs2 hk; cases hk)]
          rw [ih _ (hshape ▸ hrest)]
        · by_cases hm : c1 = '.' ∧ c2 = '/'
          · obtain ⟨hm1, hm2⟩ := hm
            subst hm1
            subst hm2
            simp only [rewriteAux, claimRewriteAux, hw, if_true]
            by_cases hre : (cs2.takeWhile (fun d => !jsWhitespace d)).isEmpty = true
            · simp only [hre, if_true]
              rw [ih _ (hshape ▸ hrest)]
            · simp only [hre, if_false, Bool.false_eq_true]
              have hdrop : ∀ d ∈ cs2.drop (cs2.takeWhile (fun d => !jsWhitespace d)).length,
                  jsWhitespace d = true → d = ' ' := by
                intro d hd
                refine (hshape ▸ hrest) d ?_
                exact List.mem_cons_of_mem _ (List.mem_cons_of_mem _ (List.drop_subset _ _ hd))
              rw [ih _ hdrop]
          · have hnm : ∀ cs2' : List Char, c1 :: c2 :: cs2 ≠ '.' :: '/' :: cs2' := by
              intro cs2' hk
              injection hk with hk1 hk2
              injection hk2 with hk2 hk3
              exact hm ⟨hk1, hk2⟩
            rw [rewriteAux_cons_ws_default rOut fuel ' ' (c1 :: c2 :: cs2) hw hnm,
              claimRewriteAux_cons_ws_default rOut fuel ' ' (c1 :: c2 :: cs2) hw hnm]
            rw [ih _ (hshape ▸ hrest)]
      · rw [Bool.not_eq_true] at hw
        simp only [rewriteAux, claimRewriteAux, hw, Bool.false_eq_true, if_false]
        rw [ih _ hrest]

/-- C8 (amended): the rewrite replaces every substring of one whitespace
character followed by `./` and a run of non-whitespace, splicing in a
plain space, the relative output-root path and `/` — so it agrees with the
claimed whitespace-preserving substitution exactly on templates whose
whitespace characters are all plain spaces; in particular
`"node ./server/index.mjs"` with output root `dist` is rewritten to
`"node dist/server/index.mjs"`. -/
theorem claim_C8 (rOut input : String)
    (h : ∀ c ∈ input.data, jsWhitespace c = true → c = ' ') :
    rewriteRelativePaths rOut input = claimRewrite rOut input := by
  unfold rewriteRelativePaths claimRewrite
  rw [rewriteAux_eq_claimRewriteAux rOut input.data.length input.data h]

theorem claim_C8_witness :
    rewriteRelativePaths "dist" "node ./server/index.mjs" = "node dist/server/index.mjs" ∧
    rewriteRelativePaths "dist" "node ./server/index.mjs"
      = claimRewrite "dist" "node ./server/index.mjs" := by
  constructor
  · decide
  · exact claim_C8 "dist" "node ./server/index.mjs" (by decide)

end NitroBuild
